import Mathlib

/-!
Verification of media_to_webm (src/media_to_webm.py): a shallow embedding of
the bitrate estimator, the size-constrained encode controller
(convert_to_webm / handle_large_webm), the image scale planner (scale and its
callers), and the duration patcher of the __main__ block, together with
theorems settling the frozen claims about them.

Modelling conventions:
- Python ints are ℤ (bitrates, slice indices) or ℕ (byte sizes, list indices);
  Python float arithmetic in get_bitrate is modelled by exact rationals ℚ, and
  floor(a / b) on integers by Int.fdiv (floor division).
- The external encoder (ffmpeg) is an explicit parameter
  enc : ℤ → Option ℕ mapping the requested audio bitrate to the byte size of
  the output file it writes, none when it writes no file (so the re-open of
  the output raises).  The recursion convert_to_webm ↔ handle_large_webm is
  given explicit fuel, since nothing in the code bounds it.
- print side effects are modelled as data: get_bitrate returns a Bool flag
  for its warning, the controller returns an Outcome carrying the terminal
  error message.
- bytearrays are List ℕ; Python slice assignment (including the negative
  start index reached when bytearray.find returns -1) is pySliceAssign.
-/

namespace MediaToWebm

/-- Config constant (line 14): default audio bitrate in kbps. -/
def DEFAULT_BITRATE : ℕ := 256

/-- Config constant (line 22): lower bound of the target image side range. -/
def IMAGE_MIN : ℕ := 400

/-- Config constant (line 23): upper bound of the target image side range. -/
def IMAGE_MAX : ℕ := 800

/-- Constant (line 29): bits per byte. -/
def TO_BITS : ℕ := 8

/-- Constant (line 30): bits per kilobit. -/
def KILOBIT : ℕ := 1000

/-- Constant (line 31): bytes per mebibyte. -/
def MEGABYTE : ℕ := 1024 * 1024

/-- Constant (line 32): the 2-byte marker locating the duration element. -/
def DURATION_BYTE_MARKER : List ℕ := [0x44, 0x89]

/-- Constant (line 33): the 7-byte replacement duration payload.  Its first
two bytes are exactly DURATION_BYTE_MARKER. -/
def FIVE_MINUTE_DURATION : List ℕ := [0x44, 0x89, 0x88, 0x41, 0x12, 0x4F, 0x80]

/-- Constant (line 34): minimum allowed libvorbis bitrate. -/
def MIN_BITRATE : ℕ := 45

/-- Constant (line 37): maximum output size in bytes (6 MiB). -/
def MAX_FILE_SIZE : ℕ := 6 * MEGABYTE

/-- Constant (line 38): maximum displayed duration in seconds. -/
def MAX_LENGTH : ℕ := 300

/-! ## Bitrate estimator (get_bitrate, lines 84-94) -/

/-- The raw corrected bitrate of get_bitrate line 87 (and of claim C4):
floor(MAX_FILE_SIZE * TO_BITS / (length * KILOBIT)).  Python float division
is modelled exactly over ℚ. -/
def specRawBitrate (length : ℚ) : ℤ :=
  ⌊(MAX_FILE_SIZE : ℚ) * (TO_BITS : ℚ) / (length * (KILOBIT : ℚ))⌋

/-- The compensation multiplier of get_bitrate line 86 (and of claim C4):
1 + (0.001*length + 0.2) * length / 9800, with the float literals read as
exact rationals. -/
def specMultiplier (length : ℚ) : ℚ :=
  1 + ((1 / 1000) * length + 1 / 5) * length / 9800

/-- The corrected bitrate before the minimum clamp, get_bitrate lines 87-89
(and the value b of claim C4): floor(raw * m) when raw * m is below the
default bitrate, else raw. -/
def specCorrectedBitrate (length : ℚ) : ℤ :=
  if (specRawBitrate length : ℚ) * specMultiplier length < (DEFAULT_BITRATE : ℚ) then
    ⌊(specRawBitrate length : ℚ) * specMultiplier length⌋
  else specRawBitrate length

/-- get_bitrate (lines 84-94).  Returns the chosen bitrate together with a
Bool recording whether the "Bitrate at minimum" warning was printed.  The
locals compression_multiplier and bitrate mirror the source. -/
def get_bitrate (length : ℚ) : ℤ × Bool :=
  if length * (DEFAULT_BITRATE : ℚ) * (KILOBIT : ℚ) > (MAX_FILE_SIZE : ℚ) * (TO_BITS : ℚ) then
    let compression_multiplier : ℚ := 1 + ((1 / 1000) * length + 1 / 5) * length / 9800
    let bitrate : ℤ := ⌊(MAX_FILE_SIZE : ℚ) * (TO_BITS : ℚ) / (length * (KILOBIT : ℚ))⌋
    let bitrate2 : ℤ :=
      if (bitrate : ℚ) * compression_multiplier < (DEFAULT_BITRATE : ℚ) then
        ⌊(bitrate : ℚ) * compression_multiplier⌋
      else bitrate
    if bitrate2 < (MIN_BITRATE : ℤ) then ((MIN_BITRATE : ℤ), true) else (bitrate2, false)
  else ((DEFAULT_BITRATE : ℤ), false)

/-! ## Size-constrained encode controller
(convert_to_webm lines 126-134, handle_large_webm lines 109-124) -/

/-- The bitrate handle_large_webm passes to the next convert_to_webm call
(lines 117-124).  Note the source's slip on line 119: when
new_bitrate < 45 it assigns MIN_BITRATE to the local variable bitrate (used
only in the warning text) and still passes the unclamped new_bitrate on. -/
def nextBitrate (size : ℕ) (bitrate : ℤ) : ℤ :=
  let new_bitrate : ℤ := Int.fdiv (bitrate * (MAX_FILE_SIZE : ℤ)) (size : ℤ)
  if new_bitrate < 45 then new_bitrate
  else if bitrate = new_bitrate then new_bitrate - 1
  else new_bitrate

/-- How one run of the controller ends. -/
inductive Outcome where
  /-- convert_to_webm returned with an output of the given size within the
  limit, last encoded at the given bitrate. -/
  | done (bitrate : ℤ) (size : ℕ)
  /-- handle_large_webm hit the terminal branch on line 115: output of the
  given size is too large and the bitrate already equals MIN_BITRATE. -/
  | failedMin (size : ℕ)
  /-- opening the output file raised (the encoder wrote no file); the
  exception propagates to the top-level handler of the __main__ block. -/
  | raised
  /-- the fuel ran out: the recursion did not terminate within it. -/
  | fuelOut
deriving DecidableEq

/-- The error message printed in the failedMin outcome (line 115). -/
def controllerMessage : Outcome → Option String
  | Outcome.failedMin _ => some "Output too large, minimum bitrate already used"
  | _ => none

/-- True when the outcome is the success path (no error reported). -/
def reportsSuccess : Outcome → Bool
  | Outcome.done _ _ => true
  | _ => false

/-- The controller loop: convert_to_webm (lines 126-134) invokes the encoder
at the current bitrate, re-opens the output to measure it, and on overflow
hands to handle_large_webm (lines 109-124), which either stops at
MIN_BITRATE or deletes the artifact and recurses at nextBitrate.  Returns
(outcome, list of bitrates at which an encode was invoked, final content of
the output path: some size, or none when it was deleted/never written). -/
def convert_to_webm (enc : ℤ → Option ℕ) : ℕ → ℤ → Outcome × List ℤ × Option ℕ
  | 0, _ => (Outcome.fuelOut, [], none)
  | fuel + 1, bitrate =>
    match enc bitrate with
    | none => (Outcome.raised, [bitrate], none)
    | some size =>
      if size ≤ MAX_FILE_SIZE then (Outcome.done bitrate size, [bitrate], some size)
      else if bitrate = (MIN_BITRATE : ℤ) then (Outcome.failedMin size, [bitrate], some size)
      else
        let r := convert_to_webm enc fuel (nextBitrate size bitrate)
        (r.1, bitrate :: r.2.1, r.2.2)

/-! ## Image scale planner (scale lines 136-158, callers lines 170-221) -/

/-- The two arithmetic operators scale chooses between (line 4 import,
lines 139-142). -/
inductive Op where
  | floordiv
  | mul
deriving DecidableEq

/-- operator(side_length, factor) as used on lines 145, 149, 152. -/
def applyOp : Op → ℕ → ℕ → ℕ
  | Op.floordiv, a, b => a / b
  | Op.mul, a, b => a * b

/-- The operator scale picks (lines 139-142): floordiv when the longer side
exceeds IMAGE_MAX, else mul. -/
def chooseOp (side_length : ℕ) : Op :=
  if side_length > IMAGE_MAX then Op.floordiv else Op.mul

/-- The factor search loop of scale (lines 143-151), with explicit fuel
(the source loop is `while True` and, in the mul branch, need not
terminate).  Note line 144 tests the range with floor division regardless of
the chosen operator, while the score on line 145 and the overshoot test on
line 149 use the operator. -/
def scaleLoop (op : Op) (side_length : ℕ) : ℕ → ℕ → ℕ → Option ℕ
  | 0, _, _ => none
  | fuel + 1, factor, score =>
    if IMAGE_MIN < side_length / (factor + 1) ∧ side_length / (factor + 1) < IMAGE_MAX then
      let new_score := ((((IMAGE_MAX + IMAGE_MIN) / 2 : ℕ) : ℤ)
        - (applyOp op side_length (factor + 1) : ℤ)).natAbs
      if new_score > score then some factor
      else scaleLoop op side_length fuel (factor + 1) new_score
    else if IMAGE_MIN > applyOp op side_length (factor + 1) then some factor
    else scaleLoop op side_length fuel (factor + 1) score

/-- The divisor scale settles on for a given longer side (lines 137-151):
the loop started at factor 1 with score 1000000. -/
def scaleFactor (side_length fuel : ℕ) : Option ℕ :=
  scaleLoop (chooseOp side_length) side_length fuel 1 1000000

/-- scale's returned new_size (line 152): the chosen operator applied to both
dimensions with the chosen factor. -/
def scale (width height side_length fuel : ℕ) : Option (ℕ × ℕ) :=
  (scaleFactor side_length fuel).map
    (fun factor => (applyOp (chooseOp side_length) width factor,
                    applyOp (chooseOp side_length) height factor))

/-- check_resize (lines 170-179), abstracted to the side_length it passes to
scale (through resize): none when max(size) ≤ IMAGE_MAX and it returns False
without scaling. -/
def check_resize (width height : ℕ) : Option ℕ :=
  if max width height ≤ IMAGE_MAX then none else some (max width height)

/-- check_resize_embedded (lines 189-221), abstracted to the side_length it
passes to scale (through resize): some only when max(size) > IMAGE_MAX
(line 210); on every other path it saves or returns without scaling. -/
def check_resize_embedded (width height : ℕ) : Option ℕ :=
  if IMAGE_MAX < max width height then some (max width height) else none

/-! ## Duration patcher (__main__ block lines 264-270) -/

/-- Whether the 2-byte marker 0x44 0x89 occurs in data at position k. -/
abbrev occursAt (data : List ℕ) (k : ℕ) : Prop :=
  data[k]? = some 0x44 ∧ data[k + 1]? = some 0x89

/-- Helper for bytearray.find: the index of the first occurrence of the
marker, as an Option. -/
def findMarkerAux : List ℕ → Option ℕ
  | a :: b :: rest =>
    if a = 0x44 ∧ b = 0x89 then some 0
    else (findMarkerAux (b :: rest)).map (· + 1)
  | _ => none

/-- data.find(DURATION_BYTE_MARKER) (line 267): the index of the first
occurrence of the marker, or -1 when absent. -/
def findMarker (data : List ℕ) : ℤ :=
  match findMarkerAux data with
  | some k => (k : ℤ)
  | none => -1

/-- Python slice assignment data[start:stop] = payload for int indices:
negative indices count from the end and both bounds clamp to [0, len];
the replaced region is [s, max s e). -/
def pySliceAssign (data payload : List ℕ) (start stop : ℤ) : List ℕ :=
  let L : ℤ := (data.length : ℤ)
  let s : ℤ := if start < 0 then max 0 (L + start) else min start L
  let e : ℤ := if stop < 0 then max 0 (L + stop) else min stop L
  data.take s.toNat ++ payload ++ data.drop (max s e).toNat

/-- The duration patch of the __main__ block (lines 267-268):
data[duration_index : duration_index+7] = FIVE_MINUTE_DURATION, where
duration_index = data.find(DURATION_BYTE_MARKER). -/
def durationPatch (data : List ℕ) : List ℕ :=
  pySliceAssign data FIVE_MINUTE_DURATION (findMarker data) (findMarker data + 7)

/-- What patching does at a marker occurrence idx (the amended claim C6):
exactly the bytes [idx, idx+7) become the payload, all other bytes and the
length are unchanged, and the marker bytes keep their values (the payload
begins with the marker). -/
abbrev patchSpecAt (data : List ℕ) (idx : ℕ) : Prop :=
  durationPatch data = data.take idx ++ FIVE_MINUTE_DURATION ++ data.drop (idx + 7)
  ∧ (durationPatch data).length = data.length
  ∧ (∀ j, j < idx → (durationPatch data)[j]? = data[j]?)
  ∧ (∀ j, idx + 7 ≤ j → (durationPatch data)[j]? = data[j]?)
  ∧ (∀ i, i < 7 → (durationPatch data)[idx + i]? = FIVE_MINUTE_DURATION[i]?)
  ∧ (durationPatch data)[idx]? = data[idx]?
  ∧ (durationPatch data)[idx + 1]? = data[idx + 1]?

/-- What the words of claim C6 describe instead: the payload overwrites the
7 bytes immediately FOLLOWING the first marker occurrence, i.e. the region
[idx+2, idx+9). -/
def patchAfterMarker (data : List ℕ) : List ℕ :=
  pySliceAssign data FIVE_MINUTE_DURATION (findMarker data + 2) (findMarker data + 9)

/-! ## Theorems: the duration patcher -/

/-- Soundness of the marker search: an index it returns is an occurrence. -/
theorem findMarkerAux_occursAt : ∀ (l : List ℕ) (k : ℕ),
    findMarkerAux l = some k → occursAt l k := by
  intro l
  induction l with
  | nil => intro k h; simp [findMarkerAux] at h
  | cons a t ih =>
    intro k h
    cases t with
    | nil => simp [findMarkerAux] at h
    | cons b rest =>
      simp only [findMarkerAux] at h
      by_cases hab : a = 0x44 ∧ b = 0x89
      · rw [if_pos hab] at h
        injection h with h
        subst h
        exact ⟨by simp [hab.1], by simp [hab.2]⟩
      · rw [if_neg hab] at h
        rcases Option.map_eq_some'.mp h with ⟨k', hk', rfl⟩
        have hocc := ih k' hk'
        exact ⟨by simpa using hocc.1, by simpa using hocc.2⟩

/-- Completeness of the marker search: when an occurrence exists, the search
returns one at or before it (the first occurrence). -/
theorem occursAt_findMarkerAux : ∀ (l : List ℕ) (j : ℕ),
    occursAt l j → ∃ k, k ≤ j ∧ findMarkerAux l = some k := by
  intro l
  induction l with
  | nil => intro j h; exact absurd h.1 (by simp)
  | cons a t ih =>
    intro j h
    cases t with
    | nil =>
      exfalso
      rcases j with _ | j'
      · have h2 := h.2
        simp at h2
      · have h1 := h.1
        simp at h1
    | cons b rest =>
      by_cases hab : a = 0x44 ∧ b = 0x89
      · exact ⟨0, Nat.zero_le j, by simp [findMarkerAux, hab]⟩
      · rcases j with _ | j'
        · exfalso
          apply hab
          have h1 := h.1
          have h2 := h.2
          constructor
          · simpa using h1
          · simpa using h2
        · have h' : occursAt (b :: rest) j' := ⟨by simpa using h.1, by simpa using h.2⟩
          rcases ih j' h' with ⟨k, hk, hfind⟩
          exact ⟨k + 1, by omega, by simp [findMarkerAux, hab, hfind]⟩

/-- A marker occurrence lies inside the buffer. -/
theorem occursAt_lt_length {l : List ℕ} {k : ℕ} (h : occursAt l k) : k < l.length := by
  rcases List.getElem?_eq_some.mp h.1 with ⟨hk, _⟩
  exact hk

/-- With exactly one marker occurrence, bytearray.find returns its index. -/
theorem findMarker_eq_of_unique (data : List ℕ) (idx : ℕ) (hocc : occursAt data idx)
    (huniq : ∀ k, k < data.length → occursAt data k → k = idx) :
    findMarker data = (idx : ℤ) := by
  rcases occursAt_findMarkerAux data idx hocc with ⟨k, _, hfind⟩
  have hk_occ := findMarkerAux_occursAt data k hfind
  have hk_len := occursAt_lt_length hk_occ
  have hk_idx : k = idx := huniq k hk_len hk_occ
  subst hk_idx
  unfold findMarker
  rw [hfind]

/-- With no marker occurrence, bytearray.find returns -1. -/
theorem findMarker_eq_neg_one (data : List ℕ)
    (hno : ∀ k, k < data.length → ¬ occursAt data k) :
    findMarker data = -1 := by
  unfold findMarker
  cases hfind : findMarkerAux data with
  | none => rfl
  | some k =>
    exfalso
    have hk_occ := findMarkerAux_occursAt data k hfind
    exact hno k (occursAt_lt_length hk_occ) hk_occ

/-- Claim C6, amended: on a buffer whose single marker occurrence is at idx
with at least 7 bytes from idx on, the patch replaces exactly the bytes
[idx, idx+7) — the region STARTING AT the marker, not the bytes following
it — with FIVE_MINUTE_DURATION; every byte outside that region and the
length are unchanged, and the marker bytes keep their values because the
payload begins with the marker. -/
theorem c6_patch_at_marker (data : List ℕ) (idx : ℕ)
    (hocc : occursAt data idx)
    (huniq : ∀ k, k < data.length → occursAt data k → k = idx)
    (hlen : idx + 7 ≤ data.length) :
    patchSpecAt data idx := by
  have hfind : findMarker data = (idx : ℤ) := findMarker_eq_of_unique data idx hocc huniq
  have hmain : durationPatch data
      = data.take idx ++ FIVE_MINUTE_DURATION ++ data.drop (idx + 7) := by
    simp only [durationPatch, pySliceAssign]
    rw [hfind]
    have h1 : ¬ ((idx : ℤ) < 0) := by omega
    have h2 : ¬ ((idx : ℤ) + 7 < 0) := by omega
    rw [if_neg h1, if_neg h2]
    have h3 : (min (idx : ℤ) ((data.length : ℕ) : ℤ)).toNat = idx := by omega
    have h4 : (max (min (idx : ℤ) ((data.length : ℕ) : ℤ))
        (min ((idx : ℤ) + 7) ((data.length : ℕ) : ℤ))).toNat = idx + 7 := by omega
    rw [h3, h4]
  have hlenTake : (data.take idx).length = idx := by
    rw [List.length_take]
    omega
  have hlenTP : (data.take idx ++ FIVE_MINUTE_DURATION).length = idx + 7 := by
    rw [List.length_append, hlenTake]
    rfl
  have hreg : ∀ i, i < 7 →
      (durationPatch data)[idx + i]? = FIVE_MINUTE_DURATION[i]? := by
    intro i hi
    rw [hmain]
    have h5 : idx + i < (data.take idx ++ FIVE_MINUTE_DURATION).length := by
      rw [hlenTP]
      omega
    rw [List.getElem?_append_left h5]
    have h6 : (data.take idx).length ≤ idx + i := by
      rw [hlenTake]
      omega
    rw [List.getElem?_append_right h6, hlenTake]
    congr 1
    omega
  have hlow : ∀ j, j < idx → (durationPatch data)[j]? = data[j]? := by
    intro j hj
    rw [hmain]
    have h5 : j < (data.take idx ++ FIVE_MINUTE_DURATION).length := by
      rw [hlenTP]
      omega
    rw [List.getElem?_append_left h5]
    have h6 : j < (data.take idx).length := by
      rw [hlenTake]
      exact hj
    rw [List.getElem?_append_left h6, List.getElem?_take, if_pos hj]
  have hhigh : ∀ j, idx + 7 ≤ j → (durationPatch data)[j]? = data[j]? := by
    intro j hj
    rw [hmain]
    have h5 : (data.take idx ++ FIVE_MINUTE_DURATION).length ≤ j := by
      rw [hlenTP]
      exact hj
    rw [List.getElem?_append_right h5, hlenTP, List.getElem?_drop]
    congr 1
    omega
  have hm1 : (durationPatch data)[idx]? = data[idx]? := by
    have h0 := hreg 0 (by norm_num)
    rw [Nat.add_zero] at h0
    rw [h0, hocc.1]
    rfl
  have hm2 : (durationPatch data)[idx + 1]? = data[idx + 1]? := by
    have h0 := hreg 1 (by norm_num)
    rw [h0, hocc.2]
    rfl
  have hlength : (durationPatch data).length = data.length := by
    rw [hmain]
    simp [List.length_append, List.length_take, List.length_drop, FIVE_MINUTE_DURATION]
    omega
  exact ⟨hmain, hlength, hlow, hhigh, hreg, hm1, hm2⟩

/-- Claim C6 (witness): a 10-byte buffer with its one marker occurrence at
index 1. -/
theorem c6_patch_at_marker_witness :
    occursAt [1, 68, 137, 9, 9, 9, 9, 9, 9, 5] 1
    ∧ (∀ k, k < ([1, 68, 137, 9, 9, 9, 9, 9, 9, 5] : List ℕ).length →
        occursAt [1, 68, 137, 9, 9, 9, 9, 9, 9, 5] k → k = 1)
    ∧ 1 + 7 ≤ ([1, 68, 137, 9, 9, 9, 9, 9, 9, 5] : List ℕ).length
    ∧ patchSpecAt [1, 68, 137, 9, 9, 9, 9, 9, 9, 5] 1 :=
  ⟨by decide, by decide, by decide,
    c6_patch_at_marker [1, 68, 137, 9, 9, 9, 9, 9, 9, 5] 1 (by decide) (by decide) (by decide)⟩

/-- Claim C6 (counterexample): the claim reads "overwrites the 7 bytes
immediately following the marker", i.e. the region [idx+2, idx+9); the code
instead writes the payload at [idx, idx+7).  On a 9-byte buffer with the
marker at index 0 the two differ: the byte at index 2 becomes 0x88 (the
third payload byte), not 0x44 (the first). -/
theorem c6_following_bytes_counterexample :
    occursAt [0x44, 0x89, 0, 0, 0, 0, 0, 0, 0] 0
    ∧ durationPatch [0x44, 0x89, 0, 0, 0, 0, 0, 0, 0]
        = [0x44, 0x89, 0x88, 0x41, 0x12, 0x4F, 0x80, 0, 0]
    ∧ patchAfterMarker [0x44, 0x89, 0, 0, 0, 0, 0, 0, 0]
        = [0x44, 0x89, 0x44, 0x89, 0x88, 0x41, 0x12, 0x4F, 0x80]
    ∧ durationPatch [0x44, 0x89, 0, 0, 0, 0, 0, 0, 0]
        ≠ patchAfterMarker [0x44, 0x89, 0, 0, 0, 0, 0, 0, 0]
    ∧ (durationPatch [0x44, 0x89, 0, 0, 0, 0, 0, 0, 0])[2]? ≠ FIVE_MINUTE_DURATION[0]? := by
  decide

/-- Claim C9: on a buffer of length ≥ 8 with no marker occurrence,
bytearray.find returns -1, the slice assignment data[-1:6] = payload inserts
the 7 payload bytes immediately before the final byte, the buffer grows by
exactly 7, and no exception is raised (the operation is total). -/
theorem c9_no_marker_inserts_before_last (data : List ℕ)
    (h8 : 8 ≤ data.length)
    (hno : ∀ k, k < data.length → ¬ occursAt data k) :
    durationPatch data
      = data.take (data.length - 1) ++ FIVE_MINUTE_DURATION ++ data.drop (data.length - 1)
    ∧ (durationPatch data).length = data.length + 7 := by
  have hfind : findMarker data = -1 := findMarker_eq_neg_one data hno
  have hmain : durationPatch data
      = data.take (data.length - 1) ++ FIVE_MINUTE_DURATION
        ++ data.drop (data.length - 1) := by
    simp only [durationPatch, pySliceAssign]
    rw [hfind]
    have h1 : (-1 : ℤ) < 0 := by norm_num
    have h2 : ¬ ((-1 : ℤ) + 7 < 0) := by norm_num
    rw [if_pos h1, if_neg h2]
    have h3 : (max 0 (((data.length : ℕ) : ℤ) + (-1))).toNat = data.length - 1 := by omega
    have h4 : (max (max 0 (((data.length : ℕ) : ℤ) + (-1)))
        (min ((-1 : ℤ) + 7) ((data.length : ℕ) : ℤ))).toNat = data.length - 1 := by omega
    rw [h3, h4]
  refine ⟨hmain, ?_⟩
  rw [hmain]
  simp [List.length_append, List.length_take, List.length_drop, FIVE_MINUTE_DURATION]
  omega

/-- Claim C9 (witness): an 8-byte buffer without the marker grows to 15
bytes, the payload sitting just before the last byte. -/
theorem c9_no_marker_inserts_before_last_witness :
    8 ≤ ([0, 1, 2, 3, 4, 5, 6, 7] : List ℕ).length
    ∧ (∀ k, k < ([0, 1, 2, 3, 4, 5, 6, 7] : List ℕ).length →
        ¬ occursAt [0, 1, 2, 3, 4, 5, 6, 7] k)
    ∧ (durationPatch [0, 1, 2, 3, 4, 5, 6, 7]
        = List.take (([0, 1, 2, 3, 4, 5, 6, 7] : List ℕ).length - 1) [0, 1, 2, 3, 4, 5, 6, 7]
          ++ FIVE_MINUTE_DURATION
          ++ List.drop (([0, 1, 2, 3, 4, 5, 6, 7] : List ℕ).length - 1) [0, 1, 2, 3, 4, 5, 6, 7]
      ∧ (durationPatch [0, 1, 2, 3, 4, 5, 6, 7]).length
        = ([0, 1, 2, 3, 4, 5, 6, 7] : List ℕ).length + 7) :=
  ⟨by decide, by decide,
    c9_no_marker_inserts_before_last [0, 1, 2, 3, 4, 5, 6, 7] (by decide) (by decide)⟩

/-! ## Theorems: the size-constrained encode controller -/

/-- Unfolding one retry step of the controller: an oversized output at a
bitrate other than the minimum deletes the artifact and re-encodes at
nextBitrate. -/
theorem convert_step (enc : ℤ → Option ℕ) (fuel : ℕ) (bitrate : ℤ) (size : ℕ)
    (h1 : enc bitrate = some size) (h2 : ¬ size ≤ MAX_FILE_SIZE)
    (h3 : ¬ bitrate = (MIN_BITRATE : ℤ)) :
    convert_to_webm enc (fuel + 1) bitrate =
      ((convert_to_webm enc fuel (nextBitrate size bitrate)).1,
        bitrate :: (convert_to_webm enc fuel (nextBitrate size bitrate)).2.1,
        (convert_to_webm enc fuel (nextBitrate size bitrate)).2.2) := by
  simp [convert_to_webm, h1, h2, h3]

/-- With an encoder that always writes 2*MAX_FILE_SIZE bytes, a controller
that has reached bitrate 0 stays at bitrate 0 forever: the proportional
correction maps 0 to 0, which is below 45, and the line-119 slip passes the
unclamped value on. -/
theorem controller_stuck_at_zero (fuel : ℕ) :
    (convert_to_webm (fun _ => some (2 * MAX_FILE_SIZE)) fuel 0).1 = Outcome.fuelOut := by
  induction fuel with
  | zero => rfl
  | succ n ih =>
    have hnext : nextBitrate (2 * MAX_FILE_SIZE) 0 = 0 := by decide
    rw [convert_step (fun _ => some (2 * MAX_FILE_SIZE)) n 0 (2 * MAX_FILE_SIZE)
      rfl (by decide) (by decide)]
    rw [hnext]
    exact ih

/-- With the same encoder, nine retry steps take the controller from bitrate
256 down to bitrate 0, skipping over 45. -/
theorem controller_descends_to_zero (n : ℕ) :
    (convert_to_webm (fun _ => some (2 * MAX_FILE_SIZE)) (n + 9) 256).1 =
      (convert_to_webm (fun _ => some (2 * MAX_FILE_SIZE)) n 0).1 := by
  have e : ∀ b : ℤ, (fun _ : ℤ => some (2 * MAX_FILE_SIZE)) b = some (2 * MAX_FILE_SIZE) :=
    fun _ => rfl
  rw [convert_step _ (n + 8) 256 _ (e 256) (by decide) (by decide),
    show nextBitrate (2 * MAX_FILE_SIZE) 256 = 128 from by decide]
  rw [convert_step _ (n + 7) 128 _ (e 128) (by decide) (by decide),
    show nextBitrate (2 * MAX_FILE_SIZE) 128 = 64 from by decide]
  rw [convert_step _ (n + 6) 64 _ (e 64) (by decide) (by decide),
    show nextBitrate (2 * MAX_FILE_SIZE) 64 = 32 from by decide]
  rw [convert_step _ (n + 5) 32 _ (e 32) (by decide) (by decide),
    show nextBitrate (2 * MAX_FILE_SIZE) 32 = 16 from by decide]
  rw [convert_step _ (n + 4) 16 _ (e 16) (by decide) (by decide),
    show nextBitrate (2 * MAX_FILE_SIZE) 16 = 8 from by decide]
  rw [convert_step _ (n + 3) 8 _ (e 8) (by decide) (by decide),
    show nextBitrate (2 * MAX_FILE_SIZE) 8 = 4 from by decide]
  rw [convert_step _ (n + 2) 4 _ (e 4) (by decide) (by decide),
    show nextBitrate (2 * MAX_FILE_SIZE) 4 = 2 from by decide]
  rw [convert_step _ (n + 1) 2 _ (e 2) (by decide) (by decide),
    show nextBitrate (2 * MAX_FILE_SIZE) 2 = 1 from by decide]
  rw [convert_step _ n 1 _ (e 1) (by decide) (by decide),
    show nextBitrate (2 * MAX_FILE_SIZE) 1 = 0 from by decide]

/-- Claim C1 (code_bug evidence): after a first encode at bitrate 256 whose
output is 36000000 bytes, the proportional correction is
floor(256 * 6291456 / 36000000) = 44, which is below MIN_BITRATE = 45, yet
the next encode is invoked at bitrate 44: the clamp on line 119 of
handle_large_webm assigns MIN_BITRATE to the wrong variable, so the
unclamped value is passed on. -/
theorem c1_unclamped_retry_bitrate :
    nextBitrate 36000000 256 = 44 ∧ (44 : ℤ) < (MIN_BITRATE : ℤ)
    ∧ (convert_to_webm (fun b => if b = 256 then some 36000000 else some 0) 2 256).2.1
        = [256, 44]
    ∧ (convert_to_webm (fun b => if b = 256 then some 36000000 else some 0) 2 256).1
        = Outcome.done 44 0 := by
  decide

/-- Claim C2 (code_bug evidence): with the deterministic encoder that writes
2*MAX_FILE_SIZE bytes at every bitrate and initial bitrate 256, the retry
loop of the controller never terminates (it exhausts any amount of fuel),
and its bitrate sequence 256, 128, ..., 1, 0, 0, 0, ... skips the terminal
MIN_BITRATE = 45 check and stops decreasing at 0 — far beyond the claimed
bound of 256 - 45 + 1 attempts. -/
theorem c2_controller_nonterminating :
    (∀ fuel : ℕ,
      (convert_to_webm (fun _ => some (2 * MAX_FILE_SIZE)) fuel 256).1 = Outcome.fuelOut)
    ∧ (convert_to_webm (fun _ => some (2 * MAX_FILE_SIZE)) 12 256).2.1
        = [256, 128, 64, 32, 16, 8, 4, 2, 1, 0, 0, 0] := by
  constructor
  · intro fuel
    rcases Nat.lt_or_ge fuel 9 with h | h
    · interval_cases fuel <;> decide
    · obtain ⟨n, rfl⟩ : ∃ n, fuel = n + 9 := ⟨fuel - 9, by omega⟩
      rw [controller_descends_to_zero]
      exact controller_stuck_at_zero n
  · decide

/-- Claim C7, amended: when the encoder writes no output file, the re-open in
convert_to_webm raises and the exception propagates (one attempt, no loop,
no success report); when it writes a zero-length file, that is not an error:
0 bytes is within MAX_FILE_SIZE, so the controller reports success after the
single attempt. -/
theorem c7_missing_output_raises (enc : ℤ → Option ℕ) (bitrate : ℤ) (fuel : ℕ) :
    (enc bitrate = none →
      convert_to_webm enc (fuel + 1) bitrate = (Outcome.raised, [bitrate], none))
    ∧ (enc bitrate = some 0 →
      convert_to_webm enc (fuel + 1) bitrate = (Outcome.done bitrate 0, [bitrate], some 0)) := by
  constructor
  · intro h
    simp [convert_to_webm, h]
  · intro h
    simp [convert_to_webm, h]

/-- Claim C7 (counterexample): an encoder that produces a zero-length output
file is NOT surfaced as an error — the controller reports success
(Outcome.done) on it. -/
theorem c7_zero_length_is_success :
    reportsSuccess (convert_to_webm (fun _ => some 0) 1 256).1 = true
    ∧ (convert_to_webm (fun _ => some 0) 1 256).1 = Outcome.done 256 0 := by
  decide

/-- Claim C7 (witness for the amended claim): with an encoder that writes no
file, the first attempt raises. -/
theorem c7_missing_output_raises_witness :
    convert_to_webm (fun _ => none) 1 256 = (Outcome.raised, [256], none) :=
  (c7_missing_output_raises (fun _ => none) 256 0).1 rfl

/-- Claim C8: an oversized output at bitrate exactly MIN_BITRATE is terminal:
the controller reports "Output too large, minimum bitrate already used",
makes no further encode attempt, and the oversized artifact stays on disk
(deletion happens only just before a retry). -/
theorem c8_min_bitrate_terminal (enc : ℤ → Option ℕ) (fuel : ℕ) (size : ℕ)
    (h1 : enc (MIN_BITRATE : ℤ) = some size) (h2 : MAX_FILE_SIZE < size) :
    convert_to_webm enc (fuel + 1) (MIN_BITRATE : ℤ)
      = (Outcome.failedMin size, [(MIN_BITRATE : ℤ)], some size)
    ∧ controllerMessage (convert_to_webm enc (fuel + 1) (MIN_BITRATE : ℤ)).1
      = some "Output too large, minimum bitrate already used" := by
  have h2' : ¬ size ≤ MAX_FILE_SIZE := not_le.mpr h2
  constructor
  · simp [convert_to_webm, h1, h2']
  · simp [convert_to_webm, h1, h2', controllerMessage]

/-- Claim C8 (witness): a 6291457-byte output at bitrate 45 ends the run with
the terminal failure and the artifact left on disk. -/
theorem c8_min_bitrate_terminal_witness :
    convert_to_webm (fun _ => some 6291457) 1 (MIN_BITRATE : ℤ)
      = (Outcome.failedMin 6291457, [(MIN_BITRATE : ℤ)], some 6291457)
    ∧ controllerMessage (convert_to_webm (fun _ => some 6291457) 1 (MIN_BITRATE : ℤ)).1
      = some "Output too large, minimum bitrate already used" :=
  c8_min_bitrate_terminal (fun _ => some 6291457) 0 6291457 rfl (by decide)

/-! ## Theorems: the image scale planner -/

/-- Claim C3 (code_bug evidence): for side 1600 (width 1600, height 1200) the
scale loop settles on divisor 4, but 1600 // 4 = 400 is NOT strictly inside
(IMAGE_MIN, IMAGE_MAX) = (400, 800) — the loop advanced past the boundary
value without scoring it and then broke.  Divisor 3 gives 533, which is
strictly inside the range (and is the best-scoring valid divisor). -/
theorem c3_scale_boundary_divisor :
    scaleFactor 1600 10 = some 4
    ∧ scale 1600 1200 1600 10 = some (400, 300)
    ∧ 1600 / 4 = 400
    ∧ ¬ (IMAGE_MIN < 1600 / 4 ∧ 1600 / 4 < IMAGE_MAX)
    ∧ (IMAGE_MIN < 1600 / 3 ∧ 1600 / 3 < IMAGE_MAX) := by
  decide

/-- Claim C10: both public entry points call scale only when the longer side
exceeds IMAGE_MAX, so scale always picks the floordiv operator and the
enlargement (mul) branch is never exercised through them. -/
theorem c10_scale_only_called_above_max (width height side : ℕ)
    (h : check_resize width height = some side
      ∨ check_resize_embedded width height = some side) :
    IMAGE_MAX < side ∧ chooseOp side = Op.floordiv := by
  rcases h with h | h
  · rw [check_resize] at h
    split_ifs at h with hle
    injection h with h
    subst h
    have hlt := not_le.mp hle
    exact ⟨hlt, by simp [chooseOp, hlt]⟩
  · rw [check_resize_embedded] at h
    split_ifs at h with hlt
    injection h with h
    subst h
    exact ⟨hlt, by simp [chooseOp, hlt]⟩

/-- Claim C10 (witness): check_resize on a 1600x1200 image hands side 1600 to
scale, which picks floordiv. -/
theorem c10_scale_only_called_above_max_witness :
    check_resize 1600 1200 = some 1600
    ∧ (IMAGE_MAX < 1600 ∧ chooseOp 1600 = Op.floordiv) :=
  ⟨by decide, c10_scale_only_called_above_max 1600 1200 1600 (Or.inl (by decide))⟩

/-! ## Theorems: the bitrate estimator -/

/-- Above the size threshold, get_bitrate is the minimum-clamp of the
corrected bitrate computed from the raw estimate and the compensation
multiplier. -/
theorem get_bitrate_above_threshold (d : ℚ)
    (h : (MAX_FILE_SIZE : ℚ) * (TO_BITS : ℚ) < d * (DEFAULT_BITRATE : ℚ) * (KILOBIT : ℚ)) :
    get_bitrate d = if specCorrectedBitrate d < (MIN_BITRATE : ℤ)
      then ((MIN_BITRATE : ℤ), true) else (specCorrectedBitrate d, false) := by
  unfold get_bitrate specCorrectedBitrate specRawBitrate specMultiplier
  rw [if_pos h]

/-- Claim C4: above the size threshold, get_bitrate returns
max(MIN_BITRATE, b) where b is the corrected bitrate of the claim's formula,
and the returned value lies between MIN_BITRATE and DEFAULT_BITRATE. -/
theorem c4_bitrate_estimator_formula (d : ℚ)
    (h : (MAX_FILE_SIZE : ℚ) * (TO_BITS : ℚ) < d * (DEFAULT_BITRATE : ℚ) * (KILOBIT : ℚ)) :
    (get_bitrate d).1 = max (MIN_BITRATE : ℤ) (specCorrectedBitrate d)
    ∧ (MIN_BITRATE : ℤ) ≤ (get_bitrate d).1
    ∧ (get_bitrate d).1 ≤ (DEFAULT_BITRATE : ℤ) := by
  have hd : 0 < d := by
    by_contra hd
    push_neg at hd
    have h1 : (0 : ℚ) < (MAX_FILE_SIZE : ℚ) * (TO_BITS : ℚ) := by
      norm_num [MAX_FILE_SIZE, TO_BITS, MEGABYTE]
    have h2 : (0 : ℚ) ≤ (DEFAULT_BITRATE : ℚ) * (KILOBIT : ℚ) := by positivity
    nlinarith
  have hraw : specRawBitrate d < (DEFAULT_BITRATE : ℤ) := by
    have hk : (0 : ℚ) < (KILOBIT : ℚ) := by norm_num [KILOBIT]
    rw [specRawBitrate, Int.floor_lt]
    rw [div_lt_iff₀ (mul_pos hd hk)]
    push_cast
    nlinarith
  have hcor : specCorrectedBitrate d < (DEFAULT_BITRATE : ℤ) := by
    rw [specCorrectedBitrate]
    split_ifs with hc
    · rw [Int.floor_lt]
      push_cast
      push_cast at hc
      linarith
    · exact hraw
  rw [get_bitrate_above_threshold d h]
  rcases lt_or_le (specCorrectedBitrate d) (MIN_BITRATE : ℤ) with h45 | h45
  · rw [if_pos h45]
    refine ⟨?_, ?_, ?_⟩
    · show (MIN_BITRATE : ℤ) = max (MIN_BITRATE : ℤ) (specCorrectedBitrate d)
      rw [max_eq_left (le_of_lt h45)]
    · exact le_refl _
    · show (MIN_BITRATE : ℤ) ≤ (DEFAULT_BITRATE : ℤ)
      decide
  · rw [if_neg (not_lt.mpr h45)]
    refine ⟨?_, ?_, ?_⟩
    · show specCorrectedBitrate d = max (MIN_BITRATE : ℤ) (specCorrectedBitrate d)
      rw [max_eq_right h45]
    · exact h45
    · exact le_of_lt hcor

/-- Claim C4 (witness): duration 400 s is above the threshold, so the bounds
hold there; the concrete value is floor(125 * (251/245)) = 128. -/
theorem c4_bitrate_estimator_formula_witness :
    (MAX_FILE_SIZE : ℚ) * (TO_BITS : ℚ) < (400 : ℚ) * (DEFAULT_BITRATE : ℚ) * (KILOBIT : ℚ)
    ∧ ((get_bitrate 400).1 = max (MIN_BITRATE : ℤ) (specCorrectedBitrate 400)
      ∧ (MIN_BITRATE : ℤ) ≤ (get_bitrate 400).1
      ∧ (get_bitrate 400).1 ≤ (DEFAULT_BITRATE : ℤ)) :=
  ⟨by norm_num [MAX_FILE_SIZE, TO_BITS, DEFAULT_BITRATE, KILOBIT, MEGABYTE],
    c4_bitrate_estimator_formula 400
      (by norm_num [MAX_FILE_SIZE, TO_BITS, DEFAULT_BITRATE, KILOBIT, MEGABYTE])⟩

/-- Claim C5: at or below the size threshold, get_bitrate returns
DEFAULT_BITRATE exactly, with no warning. -/
theorem c5_default_bitrate_below_threshold (d : ℚ) (_h0 : 0 ≤ d)
    (h : d * (DEFAULT_BITRATE : ℚ) * (KILOBIT : ℚ) ≤ (MAX_FILE_SIZE : ℚ) * (TO_BITS : ℚ)) :
    get_bitrate d = ((DEFAULT_BITRATE : ℤ), false) := by
  unfold get_bitrate
  rw [if_neg (not_lt.mpr h)]

/-- Claim C5 (witness): at duration 100 s the default bitrate fits the size
budget and is returned unchanged. -/
theorem c5_default_bitrate_below_threshold_witness :
    (0 : ℚ) ≤ 100
    ∧ (100 : ℚ) * (DEFAULT_BITRATE : ℚ) * (KILOBIT : ℚ) ≤ (MAX_FILE_SIZE : ℚ) * (TO_BITS : ℚ)
    ∧ get_bitrate 100 = ((DEFAULT_BITRATE : ℤ), false) :=
  ⟨by norm_num,
    by norm_num [DEFAULT_BITRATE, KILOBIT, MAX_FILE_SIZE, TO_BITS, MEGABYTE],
    c5_default_bitrate_below_threshold 100 (by norm_num)
      (by norm_num [DEFAULT_BITRATE, KILOBIT, MAX_FILE_SIZE, TO_BITS, MEGABYTE])⟩

end MediaToWebm
